import Mathlib

/-!
Shallow embedding of the MineAI task-execution pipeline.

Sources embedded:
* `src/unnamed/part_001` (first document): `TaskExecutor` — `executeCommand`,
  `executeTask`, the per-kind `execute*` helpers, `emergencyStop`.
* `src/src/ai/llmInterface.js`: `LLMInterface.createFallbackCommand`.
* `src/unnamed/part_004`: `MinecraftBot.collectItems`.

Modelling conventions:
* JS numbers are idealised as `Int` (the code only does additions,
  comparisons and integer parsing on them in the embedded fragments).
* A JS value that may be `undefined`/`null` is an `Option`.
* A JS function that may `throw` returns `Except Unit α`; a `try`/`catch`
  is a `match` on that result.
* External world effects (pathfinding, digging, chat, the remote LLM call)
  are inputs: they live in `BotEnv`/`Env` as oracle functions, since the
  spec treats WorldAgent and CommandParser as opaque collaborators.
  `collectItems`, which claim C7 cites, is embedded from its source with
  the per-entity world facts (name, metadata, distance, whether the
  movement attempt throws) precomputed in `ItemEntity`.
* Console logging is pure output and is not modelled.
* `executeCommand` additionally returns a trace of dispatch/wait events,
  and the per-kind helpers return the list of bot calls they make, so
  that ordering/target claims are statable.
-/

/-- 3D coordinates, as used for positions and movement targets. -/
structure Vec3 where
  x : Int
  y : Int
  z : Int
deriving Repr, DecidableEq

/-- Game-state snapshot, mirroring the object built by
`MinecraftBot.getGameState` (`src/unnamed/part_004`). The pipeline only
tests it for presence and passes it to the parser, so element types of the
sequences are simplified to names. -/
structure GameState where
  position : Vec3
  health : Int
  food : Int
  inventory : List String
  nearbyBlocks : List String
  nearbyEntities : List String
  time : Int
  weather : String
deriving Repr, DecidableEq

/-- Parameter bag of an action (`action.params` in the JS). Every field is
optional, as in the untyped JS object. -/
structure Params where
  x : Option Int := none
  y : Option Int := none
  z : Option Int := none
  blockType : Option String := none
  itemType : Option String := none
  amount : Option Int := none
  message : Option String := none
deriving Repr, DecidableEq

/-- One action of a parsed plan: `{ action: string, params: {...} }`.
`parameters` models the legacy field read by the
`task.params || task.parameters` fallback in `executeTask`. -/
structure BotAction where
  action : String
  params : Option Params := none
  parameters : Option Params := none
deriving Repr, DecidableEq

/-- Result object of `LLMInterface.parseCommand` / `createFallbackCommand`,
as consumed by `TaskExecutor.executeCommand`. -/
structure ParsedCommand where
  success : Bool
  actions : Option (List BotAction)
  error : Option String := none
  reasoning : String := ""
  originalInput : String := ""
  fallback : Bool := false
deriving Repr, DecidableEq

/-- History record pushed by `executeCommand` after the dispatch loop. -/
structure HistoryEntry where
  input : String
  tasks : List BotAction
  successCount : Nat
  timestamp : String
deriving Repr, DecidableEq

/-- Mutable fields of `TaskExecutor` touched by the embedded methods. -/
structure ExecutorState where
  taskQueue : List BotAction
  isExecuting : Bool
  executionHistory : List HistoryEntry
deriving Repr, DecidableEq

/-- JS truthiness of an optional string: `undefined`, `null` and `""` are
falsy; every other string is truthy. -/
def jsTruthyStr : Option String → Bool
  | none => false
  | some s => s ≠ ""

/-- Substring occurrence over character lists (semantics of JS
`String.prototype.includes`). -/
def listHasInfix (pat : List Char) : List Char → Bool
  | [] => pat.isEmpty
  | c :: rest => pat.isPrefixOf (c :: rest) || listHasInfix pat rest

/-- JS `s.includes(pat)`. -/
def jsIncludes (s pat : String) : Bool :=
  listHasInfix pat.data s.data

/-- JS `s.toLowerCase()`: lower-case each character (the identity on the
Japanese keywords involved here). Defined charwise over the character
list so that it evaluates by kernel reduction. -/
def jsToLower (s : String) : String :=
  ⟨s.data.map Char.toLower⟩

/-- First maximal run of ASCII digits in a string, as characters: the
semantics of `instruction.match(/\d+/g)` restricted to its first match. -/
def firstDigitRun : List Char → Option (List Char)
  | [] => none
  | c :: rest =>
    if c.isDigit then some (c :: rest.takeWhile Char.isDigit)
    else firstDigitRun rest

/-- Decimal value of a digit run (`parseInt` on a `\d+` match). -/
def digitsToNat (l : List Char) : Nat :=
  l.foldl (fun n c => 10 * n + (c.toNat - 48)) 0

/-- Distance extracted by the fallback parser:
`numbers ? parseInt(numbers[0]) : 1`. -/
def fallbackDistance (instruction : String) : Int :=
  match firstDigitRun instruction.data with
  | some ds => (digitsToNat ds : Int)
  | none => 1

/-- Embedding of `LLMInterface.createFallbackCommand`
(`src/src/ai/llmInterface.js`, lines 166-228): keyword heuristics applied
to the lower-cased instruction, with a final "not understood" result that
still carries one apology chat action. -/
def createFallbackCommand (instruction : String) : ParsedCommand :=
  let input := jsToLower instruction
  if jsIncludes input "歩" || jsIncludes input "進" || jsIncludes input "移動" then
    let distance := fallbackDistance instruction
    { success := true
      actions := some [{ action := "moveRelative"
                         params := some { x := some distance, y := some 0, z := some 0 } }]
      reasoning := toString distance ++ "ブロック前進します"
      originalInput := instruction
      fallback := true }
  else if jsIncludes input "チャット" || jsIncludes input "話" || jsIncludes input "言" then
    { success := true
      actions := some [{ action := "chat"
                         params := some { message := some "こんにちは！" } }]
      reasoning := "チャットでメッセージを送信します"
      originalInput := instruction
      fallback := true }
  else if jsIncludes input "掘" || jsIncludes input "採掘" || jsIncludes input "mine" then
    { success := true
      actions := some [{ action := "mine"
                         params := some { blockType := some "any", amount := some 1 } }]
      reasoning := "ブロックを採掘します"
      originalInput := instruction
      fallback := true }
  else
    { success := false
      error := some "指示を理解できませんでした"
      actions := some [{ action := "chat"
                         params := some { message := some "すみません、指示を理解できませんでした" } }]
      reasoning := "指示が不明確です"
      originalInput := instruction
      fallback := true }

/-- The item-entity metadata slot `entity.metadata[8]` read by
`collectItems`: a presence flag plus the item name. -/
structure MetaItem where
  present : Bool
  name : String
deriving Repr, DecidableEq

/-- One entry of `this.bot.entities` as observed by
`MinecraftBot.collectItems`, with the world-dependent facts precomputed:
the entity name, the metadata slot, the distance from the bot, and whether
the movement attempt for this entity throws (the `try` body's only
exception source). -/
structure ItemEntity where
  entityName : String
  meta : Option MetaItem
  distance : Int
  moveThrows : Bool
deriving Repr, DecidableEq

/-- Loop body of `MinecraftBot.collectItems` (`src/unnamed/part_004`,
lines 309-352), iterating over the entity table and counting pickups:
skip non-item entities; break once `collected >= amount`; apply the
item-type filter only when `itemType` is truthy; inside the `try`, skip
entities farther than 32 and count the entity once the movement promise
settles, unless that attempt threw. -/
def collectLoop (itemType : Option String) (amount : Int) :
    List ItemEntity → Nat → Nat
  | [], collected => collected
  | e :: rest, collected =>
    if e.entityName ≠ "item" then collectLoop itemType amount rest collected
    else if (collected : Int) ≥ amount then collected
    else if (match itemType with
             | none => false
             | some t =>
               if t = "" then false
               else match e.meta with
                    | none => true
                    | some m => !m.present || !(jsIncludes m.name t)) then
      collectLoop itemType amount rest collected
    else if e.distance > 32 then collectLoop itemType amount rest collected
    else if e.moveThrows then collectLoop itemType amount rest collected
    else collectLoop itemType amount rest (collected + 1)

/-- Embedding of `MinecraftBot.collectItems` (`src/unnamed/part_004`,
lines 301-356): throws when the bot is absent or disconnected, otherwise
runs the collection loop starting from `collected = 0` and returns the
count. -/
def collectItems (connected : Bool) (entities : List ItemEntity)
    (itemType : Option String) (amount : Int) : Except Unit Nat :=
  if connected then Except.ok (collectLoop itemType amount entities 0)
  else Except.error ()

/-- One call made to the bot layer by a per-kind execute helper. -/
inductive BotCall where
  | moveToPosition (x y z : Int)
  | mineBlock (blockType : String)
  | collectItems (itemType : Option String) (amount : Int)
  | sendChat (message : String)
deriving Repr, DecidableEq

/-- Oracle view of the `MinecraftBot` instance held by the executor:
its observable flags and position, the entity table consumed by
`collectItems`, and the world-dependent outcomes of the remaining bot
calls (which the spec treats as an opaque WorldAgent). -/
structure BotEnv where
  alive : Bool
  gameState : Option GameState
  position : Vec3
  connected : Bool
  entities : List ItemEntity
  moveToPosition : Int → Int → Int → Except Unit Bool
  mineBlock : String → Except Unit Bool
  sendChat : String → Except Unit Unit

/-- Embedding of `TaskExecutor.executeMove` (`src/unnamed/part_001`,
lines 188-196): requires the three numeric coordinates, else fails fast;
destructuring an absent params object throws. -/
def executeMove (bot : BotEnv) : Option Params → Except Unit Bool × List BotCall
  | none => (Except.error (), [])
  | some p =>
    match p.x, p.y, p.z with
    | some x, some y, some z => (bot.moveToPosition x y z, [BotCall.moveToPosition x y z])
    | _, _, _ => (Except.ok false, [])

/-- Embedding of `TaskExecutor.executeMoveRelative` (`src/unnamed/part_001`,
lines 201-221): requires numeric deltas, reads the current position and
moves to `current + delta` componentwise. -/
def executeMoveRelative (bot : BotEnv) :
    Option Params → Except Unit Bool × List BotCall
  | none => (Except.error (), [])
  | some p =>
    match p.x, p.y, p.z with
    | some x, some y, some z =>
      (bot.moveToPosition (bot.position.x + x) (bot.position.y + y) (bot.position.z + z),
       [BotCall.moveToPosition (bot.position.x + x) (bot.position.y + y) (bot.position.z + z)])
    | _, _, _ => (Except.ok false, [])

/-- Embedding of `TaskExecutor.executeMine` (`src/unnamed/part_001`,
lines 226-234): a falsy `blockType` fails fast. -/
def executeMine (bot : BotEnv) : Option Params → Except Unit Bool × List BotCall
  | none => (Except.error (), [])
  | some p =>
    match p.blockType with
    | none => (Except.ok false, [])
    | some bt =>
      if bt = "" then (Except.ok false, [])
      else (bot.mineBlock bt, [BotCall.mineBlock bt])

/-- Embedding of `TaskExecutor.executeCollect` (`src/unnamed/part_001`,
lines 239-243): `const { itemType, amount = 1 } = params` — the default
`1` applies only when `amount` is absent — then
`collected = await collectItems(itemType, amount); return collected > 0`. -/
def executeCollect (bot : BotEnv) : Option Params → Except Unit Bool × List BotCall
  | none => (Except.error (), [])
  | some p =>
    let amount := p.amount.getD 1
    ((collectItems bot.connected bot.entities p.itemType amount).map (fun n => decide (0 < n)),
     [BotCall.collectItems p.itemType amount])

/-- Embedding of `TaskExecutor.executeChat` (`src/unnamed/part_001`,
lines 248-257): a falsy message fails fast, otherwise send and report
success. -/
def executeChat (bot : BotEnv) : Option Params → Except Unit Bool × List BotCall
  | none => (Except.error (), [])
  | some p =>
    match p.message with
    | none => (Except.ok false, [])
    | some m =>
      if m = "" then (Except.ok false, [])
      else ((bot.sendChat m).map (fun _ => true), [BotCall.sendChat m])

/-- Embedding of `TaskExecutor.executePlace`: unimplemented, always
fails. -/
def executePlace (_bot : BotEnv) (_p : Option Params) :
    Except Unit Bool × List BotCall :=
  (Except.ok false, [])

/-- Embedding of `TaskExecutor.executeCraft`: unimplemented, always
fails. -/
def executeCraft (_bot : BotEnv) (_p : Option Params) :
    Except Unit Bool × List BotCall :=
  (Except.ok false, [])

/-- Embedding of `TaskExecutor.executeTask` (`src/unnamed/part_001`,
lines 126-183): dead bot fails fast; the switch dispatches on the action
name over the effective params `task.params || task.parameters`; a thrown
error is caught and reported as failure; an unknown action name fails. -/
def executeTask (bot : BotEnv) (task : BotAction) : Bool × List BotCall :=
  if !bot.alive then (false, [])
  else
    let p : Option Params :=
      match task.params with
      | some q => some q
      | none => task.parameters
    let rc : Except Unit Bool × List BotCall :=
      match task.action with
      | "move" => executeMove bot p
      | "moveRelative" => executeMoveRelative bot p
      | "mine" => executeMine bot p
      | "collect" => executeCollect bot p
      | "chat" => executeChat bot p
      | "place" => executePlace bot p
      | "craft" => executeCraft bot p
      | _ => (Except.ok false, [])
    (match rc.1 with
     | Except.ok b => b
     | Except.error _ => false,
     rc.2)

/-- Observable event of one `executeCommand` run: an action dispatched to
`executeTask`, or an inter-action wait. -/
inductive Event where
  | dispatch (a : BotAction)
  | wait (ms : Nat)
deriving Repr, DecidableEq

/-- The dispatch loop of `executeCommand` (`src/unnamed/part_001`,
lines 80-96): run every action in order via `executeTask`, counting
successes, and wait 1000 ms after each action except the last
(`if (i < length - 1) await wait(1000)`). Returns the success tally and
the event trace. -/
def runActions (bot : BotEnv) : List BotAction → Nat × List Event
  | [] => (0, [])
  | [a] => ((if (executeTask bot a).1 then 1 else 0), [Event.dispatch a])
  | a :: b :: rest =>
    ((if (executeTask bot a).1 then 1 else 0) + (runActions bot (b :: rest)).1,
     Event.dispatch a :: Event.wait 1000 :: (runActions bot (b :: rest)).2)

/-- Environment of one `executeCommand` call: the bot, the LLM parse
oracle (`this.llm.parseCommand`, which may throw or return a missing
object), and the timestamp the history entry records. -/
structure Env where
  bot : BotEnv
  parse : String → GameState → Except Unit (Option ParsedCommand)
  timestamp : String

/-- The `try` block of `executeCommand` (`src/unnamed/part_001`,
lines 28-112), entered with `isExecuting` already set: fetch the game
state (absent ⇒ return false), parse (a throw propagates to the `catch`),
reject a missing/absent/empty action list, otherwise run the dispatch
loop, push the history entry once, and return `successCount > 0`. -/
def executeCommandBody (env : Env) (s1 : ExecutorState) (u : String) :
    Except Unit (Bool × ExecutorState × List Event) :=
  match env.bot.gameState with
  | none => Except.ok (false, s1, [])
  | some gs =>
    match env.parse u gs with
    | Except.error e => Except.error e
    | Except.ok none => Except.ok (false, s1, [])
    | Except.ok (some pc) =>
      match pc.actions with
      | none => Except.ok (false, s1, [])
      | some [] => Except.ok (false, s1, [])
      | some (a :: rest) =>
        Except.ok
          (decide (0 < (runActions env.bot (a :: rest)).1),
           { s1 with executionHistory := s1.executionHistory ++
               [{ input := u
                  tasks := a :: rest
                  successCount := (runActions env.bot (a :: rest)).1
                  timestamp := env.timestamp }] },
           (runActions env.bot (a :: rest)).2)

/-- Embedding of `TaskExecutor.executeCommand` (`src/unnamed/part_001`,
lines 19-119): the busy latch rejects re-entry before the `try`; the
`catch` turns any exception from the body into a `false` return (state as
at the throw point, which can only be the parse step); the `finally`
clears `isExecuting` on every path that entered the `try`. Returns the
boolean result, the final executor state, and the dispatch/wait trace. -/
def executeCommand (env : Env) (s : ExecutorState) (u : String) :
    Bool × ExecutorState × List Event :=
  if s.isExecuting then (false, s, [])
  else
    match executeCommandBody env { s with isExecuting := true } u with
    | Except.ok (r, s2, tr) => (r, { s2 with isExecuting := false }, tr)
    | Except.error _ => (false, { s with isExecuting := false }, [])

/-- State of the mineflayer pathfinder (`this.bot.bot.pathfinder`), which
exists only when the inner bot object exists; `emergencyStop` guards on
`this.bot && this.bot.bot` before touching it. -/
structure PathfinderState where
  goal : Option Vec3
deriving Repr, DecidableEq

/-- Embedding of `TaskExecutor.emergencyStop` (`src/unnamed/part_001`,
lines 311-322): clear the latch, empty the queue, and clear the
pathfinder goal when the bot objects are present (`none` models an absent
bot, on which nothing can be cleared). -/
def emergencyStop (s : ExecutorState) (pf : Option PathfinderState) :
    ExecutorState × Option PathfinderState :=
  ({ s with isExecuting := false, taskQueue := [] },
   pf.map (fun _ => { goal := none }))

/-- Spec-side description of the dispatch trace, following the spec's
words for comparison against `runActions`: the actions in plan order, one
dispatch each, with a single 1000 ms wait between consecutive dispatches
and none after the last. -/
def specPlanTrace : List BotAction → List Event
  | [] => []
  | [a] => [Event.dispatch a]
  | a :: b :: rest => Event.dispatch a :: Event.wait 1000 :: specPlanTrace (b :: rest)

/-- Actions dispatched in a trace, in order. -/
def dispatchesOf (tr : List Event) : List BotAction :=
  tr.filterMap (fun e => match e with
    | Event.dispatch a => some a
    | Event.wait _ => none)

/-- Number of wait events in a trace. -/
def waitCount (tr : List Event) : Nat :=
  (tr.filter (fun e => match e with
    | Event.dispatch _ => false
    | Event.wait _ => true)).length

theorem runActions_trace (bot : BotEnv) :
    ∀ l : List BotAction, (runActions bot l).2 = specPlanTrace l
  | [] => rfl
  | [_] => rfl
  | a :: b :: rest => by
    have ih := runActions_trace bot (b :: rest)
    simp only [runActions, specPlanTrace, ih]

theorem dispatchesOf_specPlanTrace :
    ∀ l : List BotAction, dispatchesOf (specPlanTrace l) = l
  | [] => rfl
  | [_] => rfl
  | a :: b :: rest => by
    have ih := dispatchesOf_specPlanTrace (b :: rest)
    simp only [specPlanTrace, dispatchesOf, List.filterMap] at ih ⊢
    simp [ih]

theorem waitCount_specPlanTrace :
    ∀ l : List BotAction, waitCount (specPlanTrace l) = l.length - 1
  | [] => rfl
  | [_] => rfl
  | a :: b :: rest => by
    have ih := waitCount_specPlanTrace (b :: rest)
    simp only [specPlanTrace, waitCount, List.filter, List.length] at ih ⊢
    omega

theorem specPlanTrace_getLast :
    ∀ l : List BotAction, (specPlanTrace l).getLast? = l.getLast?.map Event.dispatch
  | [] => rfl
  | [_] => rfl
  | a :: b :: rest => by
    have ih := specPlanTrace_getLast (b :: rest)
    cases rest with
    | nil => rfl
    | cons c rest' =>
      simp only [specPlanTrace] at ih ⊢
      rw [List.getLast?_cons_cons, List.getLast?_cons_cons, ih, List.getLast?_cons_cons,
        List.getLast?_cons_cons, List.getLast?_cons_cons]

theorem collectLoop_nonpos (itemType : Option String) (amount : Int)
    (h : amount ≤ 0) :
    ∀ entities : List ItemEntity, collectLoop itemType amount entities 0 = 0
  | [] => rfl
  | e :: rest => by
    have ih := collectLoop_nonpos itemType amount h rest
    by_cases hn : e.entityName = "item"
    · simp only [collectLoop, hn]
      simp [h]
    · simp only [collectLoop]
      simp [hn, ih]

/-- Appending a nonempty string on the right yields a nonempty string. -/
theorem append_right_ne_empty (a b : String) (hb : b ≠ "") : a ++ b ≠ "" := by
  intro h
  apply hb
  have hlen := congrArg String.length h
  rw [String.length_append] at hlen
  have hb0 : b.length = 0 := by
    have : ("" : String).length = 0 := rfl
    omega
  have : b.data.length = 0 := hb0
  cases hd : b.data with
  | nil => cases b; simp_all
  | cons c t => rw [hd] at this; simp at this

/-- Test fixture: the current position used by the spec's round-trip
scenario. -/
def posA : Vec3 := { x := 10, y := 64, z := 20 }

/-- Test fixture: a game-state snapshot at `posA`. -/
def gsA : GameState :=
  { position := posA, health := 20, food := 20, inventory := [],
    nearbyBlocks := [], nearbyEntities := [], time := 0, weather := "clear" }

/-- Test fixture: one collectible dropped item close to the bot. -/
def itemEntityA : ItemEntity :=
  { entityName := "item", meta := none, distance := 5, moveThrows := false }

/-- Test fixture: a healthy connected bot at `posA` whose world calls all
succeed, with one collectible item nearby. -/
def botA : BotEnv :=
  { alive := true, gameState := some gsA, position := posA, connected := true,
    entities := [itemEntityA],
    moveToPosition := fun _ _ _ => Except.ok true,
    mineBlock := fun _ => Except.ok true,
    sendChat := fun _ => Except.ok () }

/-- Test fixture: a single chat action. -/
def chatActionA : BotAction :=
  { action := "chat", params := some { message := some "hello" } }

/-- Test fixture: a one-action parsed plan. -/
def planChat : ParsedCommand := { success := true, actions := some [chatActionA] }

/-- Test fixture: an environment whose parser returns `planChat`. -/
def envChat : Env :=
  { bot := botA, parse := fun _ _ => Except.ok (some planChat), timestamp := "t0" }

/-- Test fixture: an environment whose parser throws. -/
def envThrow : Env :=
  { bot := botA, parse := fun _ _ => Except.error (), timestamp := "t0" }

/-- Test fixture: an environment whose parser degrades to the fallback
heuristic parser, as `LLMInterface.parseCommand` does on an API error. -/
def envFallback : Env :=
  { bot := botA, parse := fun i _ => Except.ok (some (createFallbackCommand i)),
    timestamp := "t0" }

/-- Test fixture: idle executor with empty history. -/
def sIdle : ExecutorState :=
  { taskQueue := [], isExecuting := false, executionHistory := [] }

/-- Test fixture: executor whose latch is held by an in-flight call. -/
def sBusy : ExecutorState :=
  { taskQueue := [], isExecuting := true, executionHistory := [] }

/-- The apology chat action produced by the fallback parser's final
branch. -/
def apologyChat : BotAction :=
  { action := "chat",
    params := some { message := some "すみません、指示を理解できませんでした" } }

/-- Claim C1: if `executeCommand` is invoked while `isExecuting` is true,
it returns `false` immediately, dispatches zero actions (empty trace),
and leaves the executor state — history, latch, and task queue — exactly
as it was. -/
theorem executeCommand_busy_no_side_effects (env : Env) (s : ExecutorState)
    (u : String) (h : s.isExecuting = true) :
    executeCommand env s u = (false, s, []) := by
  simp [executeCommand, h]

/-- Witness for C1 at a concrete busy state and environment. -/
theorem executeCommand_busy_no_side_effects_witness :
    sBusy.isExecuting = true ∧ executeCommand envChat sBusy "hi" = (false, sBusy, []) :=
  ⟨rfl, executeCommand_busy_no_side_effects envChat sBusy "hi" rfl⟩

/-- Claim C2: for a plan with at least one action that reaches the
dispatch loop (idle latch, game state present, parser returned a
non-empty action list), `executeCommand` returns `true` exactly when the
loop's success tally is positive; in particular any partial success is
reported as overall success. -/
theorem executeCommand_success_iff (env : Env) (s : ExecutorState) (u : String)
    (gs : GameState) (pc : ParsedCommand) (a : BotAction) (rest : List BotAction)
    (hidle : s.isExecuting = false)
    (hgs : env.bot.gameState = some gs)
    (hparse : env.parse u gs = Except.ok (some pc))
    (hacts : pc.actions = some (a :: rest)) :
    ((executeCommand env s u).1 = true ↔ 0 < (runActions env.bot (a :: rest)).1) := by
  simp [executeCommand, hidle, executeCommandBody, hgs, hparse, hacts]

/-- Witness for C2: a concrete one-action plan whose chat action succeeds,
so the call returns `true`. -/
theorem executeCommand_success_iff_witness :
    (executeCommand envChat sIdle "hi").1 = true ∧ 0 < (runActions envChat.bot [chatActionA]).1 :=
  ⟨(executeCommand_success_iff envChat sIdle "hi" gsA planChat chatActionA []
      rfl rfl rfl rfl).2 (by decide),
   by decide⟩

/-- Claim C3: for a plan with `n ≥ 1` actions reaching the loop, the
trace of `executeCommand` is exactly the spec's interleaving — all `n`
actions dispatched in plan order (sequentially, each awaited before the
next in this sequential model), one 1000 ms wait between consecutive
dispatches, none after the last (the trace ends with the last dispatch) —
regardless of per-action failures, which do not abort the remaining
dispatches (the environment, hence any pattern of failures, is
arbitrary). -/
theorem executeCommand_dispatch_trace (env : Env) (s : ExecutorState) (u : String)
    (gs : GameState) (pc : ParsedCommand) (a : BotAction) (rest : List BotAction)
    (hidle : s.isExecuting = false)
    (hgs : env.bot.gameState = some gs)
    (hparse : env.parse u gs = Except.ok (some pc))
    (hacts : pc.actions = some (a :: rest)) :
    (executeCommand env s u).2.2 = specPlanTrace (a :: rest) ∧
    dispatchesOf ((executeCommand env s u).2.2) = a :: rest ∧
    waitCount ((executeCommand env s u).2.2) = (a :: rest).length - 1 ∧
    ((executeCommand env s u).2.2).getLast? = ((a :: rest).getLast?).map Event.dispatch := by
  have htr : (executeCommand env s u).2.2 = specPlanTrace (a :: rest) := by
    simp [executeCommand, hidle, executeCommandBody, hgs, hparse, hacts,
      runActions_trace]
  refine ⟨htr, ?_, ?_, ?_⟩ <;> rw [htr]
  · exact dispatchesOf_specPlanTrace _
  · exact waitCount_specPlanTrace _
  · exact specPlanTrace_getLast _

/-- Witness for C3 at the concrete one-action plan. -/
theorem executeCommand_dispatch_trace_witness :
    (executeCommand envChat sIdle "hi").2.2 = specPlanTrace [chatActionA] ∧
    dispatchesOf ((executeCommand envChat sIdle "hi").2.2) = [chatActionA] ∧
    waitCount ((executeCommand envChat sIdle "hi").2.2) = 0 ∧
    ((executeCommand envChat sIdle "hi").2.2).getLast? =
      some (Event.dispatch chatActionA) :=
  (executeCommand_dispatch_trace envChat sIdle "hi" gsA planChat chatActionA []
    rfl rfl rfl rfl)

/-- Counterexample to claim C4 as stated: on the busy-rejection exit path
`isExecuting` is not false after `executeCommand` returns — the rejected
call leaves the latch (held by the in-flight invocation) set. Concrete
input: any instruction against a busy executor. -/
theorem executeCommand_busy_keeps_latch :
    ((executeCommand envChat sBusy "hi").2.1).isExecuting = true := rfl

/-- Claim C4 (amended): `executeCommand` never propagates an exception
(it is total, every throwing sub-call being caught at the command
boundary); on the busy-rejection path it returns `false` with the state —
including the still-true latch — unchanged; on every path that acquires
the latch (idle at entry: missing game state, empty plan, completed loop,
or internal exception) `isExecuting` is false after it returns; and an
internal exception at the parse step yields the return value `false` with
no dispatches. -/
theorem executeCommand_no_throw_latch_release (env : Env) (s : ExecutorState)
    (u : String) :
    (s.isExecuting = true → executeCommand env s u = (false, s, [])) ∧
    (s.isExecuting = false → ((executeCommand env s u).2.1).isExecuting = false) ∧
    (s.isExecuting = false → ∀ gs, env.bot.gameState = some gs →
      env.parse u gs = Except.error () →
      executeCommand env s u = (false, { s with isExecuting := false }, [])) := by
  refine ⟨fun h => by simp [executeCommand, h], fun h => ?_, fun h gs hgs hp => ?_⟩
  · simp only [executeCommand, h, Bool.false_eq_true, if_false]
    cases hb : executeCommandBody env { s with isExecuting := true } u with
    | ok val => obtain ⟨r, s2, tr⟩ := val; rfl
    | error e => rfl
  · simp [executeCommand, h, executeCommandBody, hgs, hp]

/-- Witness for amended C4: a concrete idle executor whose parser throws;
the call returns `false`, history untouched, latch released. -/
theorem executeCommand_no_throw_latch_release_witness :
    sIdle.isExecuting = false ∧
    executeCommand envThrow sIdle "x" = (false, { sIdle with isExecuting := false }, []) :=
  ⟨rfl, (executeCommand_no_throw_latch_release envThrow sIdle "x").2.2 rfl gsA rfl rfl⟩

/-- Claim C5: the fallback heuristic parser, applied to an arbitrary
instruction string (empty or garbage included), terminates (it is a total
function) with a structurally valid result carrying an actions array and
a non-empty reasoning string; no branch throws. -/
theorem createFallbackCommand_total_valid (instr : String) :
    ((createFallbackCommand instr).actions).isSome = true ∧
    (createFallbackCommand instr).reasoning ≠ "" := by
  refine ⟨?_, ?_⟩ <;> simp only [createFallbackCommand] <;> split
  · rfl
  · split
    · rfl
    · split
      · rfl
      · rfl
  · exact append_right_ne_empty _ _ (by decide)
  · split
    · show ("チャットでメッセージを送信します" : String) ≠ ""
      decide
    · split
      · show ("ブロックを採掘します" : String) ≠ ""
        decide
      · show ("指示が不明確です" : String) ≠ ""
        decide

/-- Counterexample to claim C6 as stated: on the unmatched instruction
`"何か叫んで"` the fallback parser does not produce a zero-action plan —
its final branch carries exactly one apology chat action — and
`executeCommand` (with the parser degraded to the fallback and a live
bot) dispatches that action and returns `true`, not `false`. -/
theorem fallback_unrecognized_not_zero_actions :
    (createFallbackCommand "何か叫んで").actions = some [apologyChat] ∧
    (createFallbackCommand "何か叫んで").success = false ∧
    (executeCommand envFallback sIdle "何か叫んで").1 = true ∧
    dispatchesOf ((executeCommand envFallback sIdle "何か叫んで").2.2) = [apologyChat] :=
  ⟨rfl, rfl, rfl, rfl⟩

/-- Boolean test that an instruction matches none of the fallback
parser's vocabulary keywords (all three branch conditions false). -/
def fallbackUnmatched (instruction : String) : Bool :=
  let input := jsToLower instruction
  !(jsIncludes input "歩" || jsIncludes input "進" || jsIncludes input "移動" ||
    jsIncludes input "チャット" || jsIncludes input "話" || jsIncludes input "言" ||
    jsIncludes input "掘" || jsIncludes input "採掘" || jsIncludes input "mine")

/-- Claim C6 (amended): for an instruction matched by none of the
fallback vocabulary keywords, the fallback produces an unsuccessful plan
(`success = false`) with exactly one chat action carrying the apology
message — not zero actions — and `executeCommand` consequently dispatches
that one chat action and returns `true` when the chat succeeds. -/
theorem fallback_unrecognized_apology_chat (instr : String) (env : Env)
    (s : ExecutorState) (gs : GameState)
    (hun : fallbackUnmatched instr = true)
    (hidle : s.isExecuting = false)
    (hgs : env.bot.gameState = some gs)
    (hparse : env.parse instr gs = Except.ok (some (createFallbackCommand instr)))
    (halive : env.bot.alive = true)
    (hchat : env.bot.sendChat "すみません、指示を理解できませんでした" = Except.ok ()) :
    (createFallbackCommand instr).success = false ∧
    (createFallbackCommand instr).actions = some [apologyChat] ∧
    (executeCommand env s instr).1 = true ∧
    dispatchesOf ((executeCommand env s instr).2.2) = [apologyChat] := by
  unfold fallbackUnmatched at hun
  simp only [Bool.not_eq_true', Bool.or_eq_false_iff] at hun
  obtain ⟨⟨⟨⟨⟨⟨⟨⟨h1, h2⟩, h3⟩, h4⟩, h5⟩, h6⟩, h7⟩, h8⟩, h9⟩ := hun
  have hfb : createFallbackCommand instr =
      { success := false, error := some "指示を理解できませんでした",
        actions := some [apologyChat], reasoning := "指示が不明確です",
        originalInput := instr, fallback := true } := by
    unfold createFallbackCommand
    simp [h1, h2, h3, h4, h5, h6, h7, h8, h9, apologyChat]
  refine ⟨by rw [hfb], by rw [hfb], ?_, ?_⟩ <;>
    simp [executeCommand, hidle, executeCommandBody, hgs, hparse, hfb,
      runActions, executeTask, halive, apologyChat, executeChat, hchat,
      Except.map, dispatchesOf]

/-- Witness for amended C6 at the concrete instruction `"何か叫んで"`. -/
theorem fallback_unrecognized_apology_chat_witness :
    fallbackUnmatched "何か叫んで" = true ∧
    (executeCommand envFallback sIdle "何か叫んで").1 = true :=
  ⟨rfl,
   (fallback_unrecognized_apology_chat "何か叫んで" envFallback sIdle gsA
      rfl rfl rfl rfl rfl rfl).2.2.1⟩

/-- Counterexample to claim C7 as stated: an explicit requested amount of
`0` is not defaulted to `1` — with one collectible item in range the code
seeks zero items, collects `0`, and reports failure, whereas the same
call with amount `1` collects the item and reports success. -/
theorem collect_amount_zero_not_defaulted :
    collectItems true [itemEntityA] none 0 = Except.ok 0 ∧
    (executeCollect botA (some { itemType := none, amount := some 0 })).1 =
      Except.ok false ∧
    collectItems true [itemEntityA] none 1 = Except.ok 1 ∧
    (executeCollect botA (some { itemType := none, amount := some 1 })).1 =
      Except.ok true :=
  ⟨rfl, rfl, rfl, rfl⟩

/-- Claim C7 (amended): a missing `amount` defaults to `1` (at least one
item is sought); an explicit `amount ≤ 0` is passed through unchanged, so
zero items are collected and the action fails; and in every case the
action is reported as a success exactly when `collectItems` returned at
least `1`. -/
theorem collect_amount_semantics (bot : BotEnv) (p : Params) :
    (p.amount = none →
      executeCollect bot (some p) =
        ((collectItems bot.connected bot.entities p.itemType 1).map
           (fun n => decide (0 < n)),
         [BotCall.collectItems p.itemType 1])) ∧
    (∀ a : Int, a ≤ 0 → bot.connected = true → p.amount = some a →
      (executeCollect bot (some p)).1 = Except.ok false) ∧
    (∀ n : Nat,
      collectItems bot.connected bot.entities p.itemType (p.amount.getD 1) =
        Except.ok n →
      (executeCollect bot (some p)).1 = Except.ok (decide (0 < n))) := by
  refine ⟨fun h => by simp [executeCollect, h], fun a ha hc hpa => ?_,
    fun n hn => by simp [executeCollect, hn, Except.map]⟩
  simp [executeCollect, hpa, collectItems, hc, collectLoop_nonpos _ _ ha,
    Except.map]

/-- Witness for amended C7: amount `0` against a bot with one collectible
item yields a failed collect action. -/
theorem collect_amount_semantics_witness :
    (0 : Int) ≤ 0 ∧
    (executeCollect botA (some { itemType := none, amount := some 0 })).1 =
      Except.ok false :=
  ⟨le_refl 0,
   (collect_amount_semantics botA { itemType := none, amount := some 0 }).2.1
     0 (le_refl 0) rfl rfl⟩

/-- Claim C8: `emergencyStop` is idempotent — applying it to its own
result is the identity — and its result always has the latch cleared, the
task queue empty, and, whenever the bot objects are present, no pending
pathfinder goal; the quantification over all states includes the idle
ones, so calling it when idle is safe. -/
theorem emergencyStop_idempotent (s : ExecutorState) (pf : Option PathfinderState) :
    emergencyStop (emergencyStop s pf).1 (emergencyStop s pf).2 = emergencyStop s pf ∧
    (emergencyStop s pf).1.isExecuting = false ∧
    (emergencyStop s pf).1.taskQueue = [] ∧
    (∀ pfS, (emergencyStop s pf).2 = some pfS → pfS.goal = none) := by
  refine ⟨?_, rfl, rfl, fun pfS h => ?_⟩
  · cases pf <;> rfl
  · cases pf with
    | none => simp [emergencyStop] at h
    | some q =>
      simp only [emergencyStop, Option.map_some', Option.some.injEq] at h
      rw [← h]

/-- Witness for C8 at a busy executor with a pending goal. -/
theorem emergencyStop_idempotent_witness :
    (emergencyStop sBusy (some { goal := some posA })).2 = some { goal := none } ∧
    ({ goal := none } : PathfinderState).goal = none :=
  ⟨rfl,
   (emergencyStop_idempotent sBusy (some { goal := some posA })).2.2.2
     { goal := none } rfl⟩

/-- Claim C9: a `moveRelative` action with deltas `(3, 0, 0)` executed
while the bot's current position is `(10, 64, 20)` resolves to the
absolute target `(13, 64, 20)` — current position plus delta,
componentwise — and that target is what is passed to `moveToPosition`. -/
theorem moveRelative_resolves_target (bot : BotEnv) (p : Params)
    (hpos : bot.position = { x := 10, y := 64, z := 20 })
    (hx : p.x = some 3) (hy : p.y = some 0) (hz : p.z = some 0) :
    executeMoveRelative bot (some p) =
      (bot.moveToPosition 13 64 20, [BotCall.moveToPosition 13 64 20]) := by
  simp [executeMoveRelative, hx, hy, hz, hpos]

/-- Witness for C9 at the concrete bot fixture standing at `(10,64,20)`. -/
theorem moveRelative_resolves_target_witness :
    botA.position = { x := 10, y := 64, z := 20 } ∧
    executeMoveRelative botA (some { x := some 3, y := some 0, z := some 0 }) =
      (Except.ok true, [BotCall.moveToPosition 13 64 20]) := by
  refine ⟨rfl, ?_⟩
  rw [moveRelative_resolves_target botA { x := some 3, y := some 0, z := some 0 }
    rfl rfl rfl rfl]
  rfl

/-- Claim C10: `executionHistory` is unchanged on every exit path that
does not reach the dispatch loop — busy rejection, missing game state,
an exception thrown at the parse step (the only throw site inside the
`try`; once the loop starts, `executeTask` catches every error, so no
exception can interrupt it), a missing parse result, and a missing or
empty action list — and exactly one `HistoryEntry`, recording the loop's
tally, is appended when and only when the loop has run over all
actions. -/
theorem executionHistory_frame (env : Env) (s : ExecutorState) (u : String) :
    (s.isExecuting = true →
      ((executeCommand env s u).2.1).executionHistory = s.executionHistory) ∧
    (s.isExecuting = false → env.bot.gameState = none →
      ((executeCommand env s u).2.1).executionHistory = s.executionHistory) ∧
    (s.isExecuting = false → ∀ gs, env.bot.gameState = some gs →
      env.parse u gs = Except.error () →
      ((executeCommand env s u).2.1).executionHistory = s.executionHistory) ∧
    (s.isExecuting = false → ∀ gs, env.bot.gameState = some gs →
      env.parse u gs = Except.ok none →
      ((executeCommand env s u).2.1).executionHistory = s.executionHistory) ∧
    (s.isExecuting = false → ∀ gs pc, env.bot.gameState = some gs →
      env.parse u gs = Except.ok (some pc) →
      (pc.actions = none ∨ pc.actions = some []) →
      ((executeCommand env s u).2.1).executionHistory = s.executionHistory) ∧
    (s.isExecuting = false → ∀ gs pc a rest, env.bot.gameState = some gs →
      env.parse u gs = Except.ok (some pc) → pc.actions = some (a :: rest) →
      ((executeCommand env s u).2.1).executionHistory =
        s.executionHistory ++
          [{ input := u, tasks := a :: rest,
             successCount := (runActions env.bot (a :: rest)).1,
             timestamp := env.timestamp }]) := by
  refine ⟨fun h => by simp [executeCommand, h],
    fun h hgs => by simp [executeCommand, h, executeCommandBody, hgs],
    fun h gs hgs hp => by simp [executeCommand, h, executeCommandBody, hgs, hp],
    fun h gs hgs hp => by simp [executeCommand, h, executeCommandBody, hgs, hp],
    fun h gs pc hgs hp hacts => ?_,
    fun h gs pc a rest hgs hp hacts => by
      simp [executeCommand, h, executeCommandBody, hgs, hp, hacts]⟩
  cases hacts with
  | inl hnone => simp [executeCommand, h, executeCommandBody, hgs, hp, hnone]
  | inr hnil => simp [executeCommand, h, executeCommandBody, hgs, hp, hnil]

/-- Witness for C10: a throwing parse leaves the history untouched, while
the completed one-action plan appends exactly its entry. -/
theorem executionHistory_frame_witness :
    ((executeCommand envThrow sIdle "x").2.1).executionHistory =
      sIdle.executionHistory ∧
    ((executeCommand envChat sIdle "hi").2.1).executionHistory =
      sIdle.executionHistory ++
        [{ input := "hi", tasks := [chatActionA],
           successCount := (runActions envChat.bot [chatActionA]).1,
           timestamp := envChat.timestamp }] :=
  ⟨(executionHistory_frame envThrow sIdle "x").2.2.1 rfl gsA rfl rfl,
   (executionHistory_frame envChat sIdle "hi").2.2.2.2.2 rfl gsA planChat
     chatActionA [] rfl rfl rfl⟩
